import Mathlib

/-!
Verification of the snake-game simulation core (src/snake_game.py).

The shallow embedding below translates the simulation layer of the source:
grid constants and the toroidal advance (Snake.move, lines 161-164), the
snake state machine (Snake, lines 123-206), apple placement
(Apple.randomize_position, lines 92-111) and one iteration of the main loop
(main, lines 288-324).  Pixel coordinates are natural numbers; direction
vectors are integer pairs exactly as in the source (UP = (0, -CELL_SIZE)
etc.); Python's `%` on a positive modulus is Int.emod.  The random draw of
`random.choice` over a tuple is modelled by an arbitrary natural-number
index `pick` into the computed list of candidates, so quantifying over
`pick` quantifies over every possible behaviour of the random source, and
the arbitrary iteration order of the Python `set` is covered the same way.
-/

set_option maxRecDepth 100000
set_option maxHeartbeats 4000000

namespace SnakeGame

/-- Grid constants, src/snake_game.py lines 13-17. -/
def CELL_SIZE : Nat := 20

/-- Field width in cells, line 14. -/
def FIELD_WIDTH : Nat := 32

/-- Field height in cells, line 15. -/
def FIELD_HEIGHT : Nat := 24

/-- Screen width in pixels (640), line 16. -/
def SCREEN_WIDTH : Nat := FIELD_WIDTH * CELL_SIZE

/-- Screen height in pixels (480), line 17. -/
def SCREEN_HEIGHT : Nat := FIELD_HEIGHT * CELL_SIZE

/-- A cell: a pixel-coordinate pair, as the Python tuples. -/
abbrev Cell : Type := Nat × Nat

/-- A direction vector, an integer pair (components can be negative). -/
abbrev Dir : Type := Int × Int

/-- Direction UP, line 25. -/
def UP : Dir := (0, -(CELL_SIZE : Int))

/-- Direction DOWN, line 26. -/
def DOWN : Dir := (0, (CELL_SIZE : Int))

/-- Direction LEFT, line 27. -/
def LEFT : Dir := (-(CELL_SIZE : Int), 0)

/-- Direction RIGHT, line 28. -/
def RIGHT : Dir := ((CELL_SIZE : Int), 0)

/-- All cells of the field, lines 31-33.  The Python value is a set of
tuples; it is modelled as a list enumerating the same comprehension, and
every place that draws from it quantifies over the drawn index, which
covers any set-iteration order. -/
def ALL_CELLS : List Cell :=
  (List.range FIELD_WIDTH).flatMap fun x =>
    (List.range FIELD_HEIGHT).map fun y => (x * CELL_SIZE, y * CELL_SIZE)

/-- Centre of the field, line 36. -/
def CENTER_POSITION : Cell := (SCREEN_WIDTH / 2, SCREEN_HEIGHT / 2)

/-- Toroidal advance of a cell by a direction: the new-head computation of
Snake.move, lines 162-163 (also repeated in main, lines 297-298):
`(head + d) % SCREEN` componentwise, with Python `%` = Int.emod. -/
def advance (c : Cell) (d : Dir) : Cell :=
  ((((c.1 : Int) + d.1).emod (SCREEN_WIDTH : Int)).toNat,
   (((c.2 : Int) + d.2).emod (SCREEN_HEIGHT : Int)).toNat)

/-- The snake state: fields of Snake.__init__, lines 126-135 (the `position`
and `body_color` fields of the base class carry no game logic and are
omitted). -/
structure Snake where
  length : Nat
  positions : List Cell
  direction : Dir
  next_direction : Option Dir
  deriving DecidableEq, Repr

/-- Initial snake, Snake.__init__ lines 126-135: one segment at the centre,
heading RIGHT, no pending direction. -/
def Snake.start : Snake :=
  ⟨1, [CENTER_POSITION], RIGHT, none⟩

/-- The opposite-direction lookup of Snake.update_direction, lines 141-146;
`Option` mirrors `dict.get`, which yields None on a key outside the table. -/
def opposite_directions (d : Dir) : Option Dir :=
  if d = UP then some DOWN
  else if d = DOWN then some UP
  else if d = LEFT then some RIGHT
  else if d = RIGHT then some LEFT
  else none

/-- Snake.update_direction, lines 137-149: if a pending direction exists
and differs from the opposite of the current direction, commit it; clear
the pending slot in either case. -/
def Snake.update_direction (s : Snake) : Snake :=
  match s.next_direction with
  | none => s
  | some nd =>
    if some nd ≠ opposite_directions s.direction then
      { s with direction := nd, next_direction := none }
    else
      { s with next_direction := none }

/-- Snake.get_head_position, lines 175-182: `positions[0]`. -/
def Snake.get_head_position (s : Snake) : Cell :=
  s.positions.headI

/-- Snake.move, lines 151-173: prepend the toroidally advanced head; if not
growing pop the last element, otherwise set `length` to the new segment
count. -/
def Snake.move (s : Snake) (grow : Bool) : Snake :=
  let new_head := advance s.get_head_position s.direction
  let ps := new_head :: s.positions
  if grow then
    { s with positions := ps, length := ps.length }
  else
    { s with positions := ps.dropLast }

/-- Snake.check_self_collision, lines 184-197: false when `length < 4`,
otherwise whether the head occurs in `positions[1:]`. -/
def Snake.check_self_collision (s : Snake) : Bool :=
  if s.length < 4 then false
  else decide (s.get_head_position ∈ s.positions.tail)

/-- Snake.reset, lines 199-206: back to a single segment at the centre,
heading RIGHT (this method is never called by the game loop; the loop's
inline collision reset is `collision_reset` below). -/
def Snake.reset (s : Snake) : Snake :=
  { s with length := 1, positions := [CENTER_POSITION],
           direction := RIGHT, next_direction := none }

/-- The free cells given a list of occupied ones: `ALL_CELLS - occupied_set`
of Apple.randomize_position, lines 104-105. -/
def free_cells (occupied : List Cell) : List Cell :=
  ALL_CELLS.filter fun c => decide (c ∉ occupied)

/-- Apple.randomize_position, lines 92-111: draw from the free cells when
some exist, otherwise fall back to a draw from all cells.  `pick` indexes
the drawn tuple and ranges over every behaviour of `random.choice`. -/
def randomize_position (occupied : List Cell) (pick : Nat) : Cell :=
  let free := free_cells occupied
  if free.isEmpty then
    ALL_CELLS.getD (pick % ALL_CELLS.length) CENTER_POSITION
  else
    free.getD (pick % free.length) CENTER_POSITION

/-- The inline collision reset of the main loop, lines 318-324: keep only
the current head, set `length` to 1, touch nothing else. -/
def collision_reset (s : Snake) : Snake :=
  { s with positions := [s.get_head_position], length := 1 }

/-- One game state of the main loop: the snake and the apple cell. -/
structure GameState where
  snake : Snake
  apple : Cell
  deriving DecidableEq, Repr

/-- Recording a directional intent into the pending slot
(`snake.next_direction = new_direction` in handle_keys, line 258); at most
the last intent before the tick survives, exactly as repeated assignments to
the slot. -/
def set_pending (s : Snake) (intent : Option Dir) : Snake :=
  match intent with
  | none => s
  | some d => { s with next_direction := some d }

/-- The snake after the direction-resolution phase of a tick
(main lines 288-289). -/
def tick_resolved (g : GameState) (intent : Option Dir) : Snake :=
  (set_pending g.snake intent).update_direction

/-- The growth decision of a tick: the look-ahead head equals the apple
(main lines 296-302). -/
def tick_grow (g : GameState) (intent : Option Dir) : Bool :=
  decide (advance (tick_resolved g intent).get_head_position
            (tick_resolved g intent).direction = g.apple)

/-- The snake after the movement phase of a tick (main lines 304-316). -/
def tick_moved (g : GameState) (intent : Option Dir) : Snake :=
  (tick_resolved g intent).move (tick_grow g intent)

/-- One full iteration of the main loop, lines 288-324 (rendering and the
best-length caption omitted): resolve the pending direction, decide growth
by look-ahead against the apple, move, relocate the apple on growth, then
check self-collision and reset to the lone head when it hits.  Returns the
new state together with the grew and collided outcome flags. -/
def tick (g : GameState) (intent : Option Dir) (pick : Nat) :
    GameState × Bool × Bool :=
  let s2 := tick_moved g intent
  let apple2 := if tick_grow g intent then randomize_position s2.positions pick
                else g.apple
  let collided := s2.check_self_collision
  (⟨if collided then collision_reset s2 else s2, apple2⟩,
   tick_grow g intent, collided)

/-- The start-of-game state, main lines 272-273: fresh snake, apple drawn
avoiding the snake's single segment. -/
def startState (pick0 : Nat) : GameState :=
  ⟨Snake.start, randomize_position Snake.start.positions pick0⟩

/-- States reachable at tick boundaries: the initial state (any behaviour
of the initial apple draw) and closure under one tick (any intent, any
apple draw). -/
inductive Reachable : GameState → Prop
  | start (pick0 : Nat) : Reachable (startState pick0)
  | step (g : GameState) (intent : Option Dir) (pick : Nat) :
      Reachable g → Reachable (tick g intent pick).1

/-- A concrete five-segment snake one step away from biting its own body,
with the apple far away. -/
def collisionDemo : GameState :=
  ⟨⟨5, [(320, 240), (340, 240), (340, 220), (320, 220), (300, 220)], UP, none⟩,
   (0, 0)⟩

/-- The n-th cell of a boustrophedon walk that starts at the centre cell,
sweeps each row fully (wrapping through the vertical edges) and drops one
row (wrapping through the bottom edge) after each sweep, covering the whole
grid in 768 steps. -/
def pathCell (n : Nat) : Cell :=
  let r := n / 32
  let k := n % 32
  let j := (12 + r) % 24
  let i := if r % 2 = 0 then (16 + k) % 32 else (47 - k) % 32
  (i * CELL_SIZE, j * CELL_SIZE)

/-- The direction of the walk step leading from `pathCell n` to
`pathCell (n + 1)`. -/
def pathDir (n : Nat) : Dir :=
  if n % 32 = 31 then DOWN else if (n / 32) % 2 = 0 then RIGHT else LEFT

/-- The walk index of the grid coordinate (x, y), inverse to pathCell. -/
def pathIndex (x y : Nat) : Nat :=
  let r := (y + 12) % 24
  let k := if r % 2 = 0 then (x + 16) % 32 else (47 - x) % 32
  r * 32 + k

/-- The walk index of a cell in pixel coordinates. -/
def unpathIndex (c : Cell) : Nat :=
  pathIndex (c.1 / CELL_SIZE) (c.2 / CELL_SIZE)

/-- The snake body after t growth ticks along the walk: the first t + 1
walk cells, head first. -/
def posAfter : Nat → List Cell
  | 0 => [pathCell 0]
  | t + 1 => pathCell (t + 1) :: posAfter t

/-- The game state after t growth ticks along the walk: the body covers the
first t + 1 walk cells, the heading is the last step taken, and the apple
sits on the next walk cell — until the body covers the whole grid at
t = 767, when the apple draw can only fall back onto the body; (300, 220)
is the cell straight ahead of the head there. -/
def stateAfter (t : Nat) : GameState :=
  ⟨⟨t + 1, posAfter t, pathDir (t - 1), none⟩,
   if t < 767 then pathCell (t + 1) else (300, 220)⟩

/-! Basic lemmas. -/

/-- An element of a list is returned by `getD` at its index. -/
lemma getD_of_mem (l : List Cell) (c d : Cell) (h : c ∈ l) :
    ∃ k, k < l.length ∧ l.getD k d = c := by
  induction l with
  | nil => cases h
  | cons a as ih =>
    rcases List.mem_cons.mp h with h1 | h1
    · exact ⟨0, Nat.succ_pos _, h1.symm⟩
    · obtain ⟨k, hk, hget⟩ := ih h1
      exact ⟨k + 1, Nat.succ_lt_succ hk, hget⟩

/-- Membership in the free-cell list. -/
lemma mem_free_cells (occupied : List Cell) (c : Cell) :
    c ∈ free_cells occupied ↔ c ∈ ALL_CELLS ∧ c ∉ occupied := by
  simp [free_cells, List.mem_filter]

/-- Claim C1.  For every snake state with `length = positions.length` and a
non-empty body, `move true` prepends exactly one new head cell (the toroidal
advance of the old head) and increases `length` by one, while `move false`
leaves `length` unchanged and removes the last segment; in both cases the
new `positions[0]` is the toroidal advance of the old head. -/
theorem C1_move (s : SnakeGame.Snake) (h : s.length = s.positions.length)
    (hne : s.positions ≠ []) :
    (s.move true).length = s.length + 1 ∧
    (s.move true).positions
      = advance s.get_head_position s.direction :: s.positions ∧
    (s.move false).length = s.length ∧
    (s.move false).positions
      = advance s.get_head_position s.direction :: s.positions.dropLast ∧
    (s.move false).positions.length = s.positions.length ∧
    (s.move true).positions.headI = advance s.get_head_position s.direction ∧
    (s.move false).positions.headI = advance s.get_head_position s.direction := by
  obtain ⟨len, ps, d, nd⟩ := s
  cases ps with
  | nil => exact absurd rfl hne
  | cons c cs =>
    refine ⟨?_, rfl, rfl, ?_, ?_, rfl, ?_⟩
    · simp only [List.length_cons] at h
      simp [Snake.move, h]
    · simp [Snake.move, List.dropLast]
    · simp [Snake.move, List.length_dropLast]
    · simp [Snake.move, List.dropLast]

/-- Claim C1 witness at a concrete two-segment snake. -/
theorem C1_move_witness :
    ((2 : Nat) = ([((320 : Nat), (240 : Nat)), (300, 240)] : List SnakeGame.Cell).length ∧
      ([((320 : Nat), (240 : Nat)), (300, 240)] : List SnakeGame.Cell) ≠ []) ∧
    ((Snake.move ⟨2, [(320, 240), (300, 240)], RIGHT, none⟩ true).length = 2 + 1 ∧
      (Snake.move ⟨2, [(320, 240), (300, 240)], RIGHT, none⟩ true).positions
        = advance (Snake.get_head_position ⟨2, [(320, 240), (300, 240)], RIGHT, none⟩)
            RIGHT :: [(320, 240), (300, 240)] ∧
      (Snake.move ⟨2, [(320, 240), (300, 240)], RIGHT, none⟩ false).length = 2 ∧
      (Snake.move ⟨2, [(320, 240), (300, 240)], RIGHT, none⟩ false).positions
        = advance (Snake.get_head_position ⟨2, [(320, 240), (300, 240)], RIGHT, none⟩)
            RIGHT :: ([((320 : Nat), (240 : Nat)), (300, 240)] : List SnakeGame.Cell).dropLast ∧
      (Snake.move ⟨2, [(320, 240), (300, 240)], RIGHT, none⟩ false).positions.length
        = ([((320 : Nat), (240 : Nat)), (300, 240)] : List SnakeGame.Cell).length ∧
      (Snake.move ⟨2, [(320, 240), (300, 240)], RIGHT, none⟩ true).positions.headI
        = advance (Snake.get_head_position ⟨2, [(320, 240), (300, 240)], RIGHT, none⟩) RIGHT ∧
      (Snake.move ⟨2, [(320, 240), (300, 240)], RIGHT, none⟩ false).positions.headI
        = advance (Snake.get_head_position ⟨2, [(320, 240), (300, 240)], RIGHT, none⟩) RIGHT) :=
  ⟨⟨rfl, by decide⟩, C1_move ⟨2, [(320, 240), (300, 240)], RIGHT, none⟩ rfl (by decide)⟩

/-- Helper for claim C2, stated for one concrete current direction `d`
whose table opposite is `od`. -/
lemma update_direction_spec (len : Nat) (ps : List Cell) (pend : Option Dir)
    (d od : Dir) (hop : opposite_directions d = some od)
    (hneg : (-d.1, -d.2) = od) (hdo : d ≠ od) :
    (Snake.update_direction ⟨len, ps, d, pend⟩).direction ≠ (-d.1, -d.2) ∧
    (Snake.update_direction ⟨len, ps, d, pend⟩).next_direction = none ∧
    (∀ nd, pend = some nd → some nd = opposite_directions d →
      (Snake.update_direction ⟨len, ps, d, pend⟩).direction = d) := by
  rw [hneg]
  cases pend with
  | none =>
    exact ⟨hdo, rfl, fun nd h => by cases h⟩
  | some nd =>
    by_cases hnd : nd = od
    · subst hnd
      have hcond : ¬ (some nd ≠ opposite_directions d) := by
        rw [hop]
        exact not_not_intro rfl
      refine ⟨?_, ?_, ?_⟩
      · simp only [Snake.update_direction, if_neg hcond]
        exact hdo
      · simp only [Snake.update_direction, if_neg hcond]
      · intro nd2 _ _
        simp only [Snake.update_direction, if_neg hcond]
    · have hcond : some nd ≠ opposite_directions d := by
        rw [hop]
        intro hc
        exact hnd (Option.some_injective _ hc)
      refine ⟨?_, ?_, ?_⟩
      · simp only [Snake.update_direction, if_pos hcond]
        exact hnd
      · simp only [Snake.update_direction, if_pos hcond]
      · intro nd2 hnd2 hopp
        cases hnd2
        exact absurd hopp hcond

/-- Claim C2.  One call to update_direction never turns the direction into
the exact opposite (the componentwise negation) of its prior value, always
clears the pending slot, and leaves the direction unchanged whenever the
pending request was the rejected reversal. -/
theorem C2_update_direction (s : SnakeGame.Snake)
    (hd : s.direction = UP ∨ s.direction = DOWN ∨
          s.direction = LEFT ∨ s.direction = RIGHT) :
    s.update_direction.direction ≠ (-s.direction.1, -s.direction.2) ∧
    s.update_direction.next_direction = none ∧
    (∀ nd, s.next_direction = some nd →
      some nd = opposite_directions s.direction →
      s.update_direction.direction = s.direction) := by
  obtain ⟨len, ps, d, pend⟩ := s
  simp only at hd ⊢
  have key : ∀ od : Dir, opposite_directions d = some od → (-d.1, -d.2) = od →
      d ≠ od →
      (Snake.update_direction ⟨len, ps, d, pend⟩).direction ≠ (-d.1, -d.2) ∧
      (Snake.update_direction ⟨len, ps, d, pend⟩).next_direction = none ∧
      (∀ nd, pend = some nd → some nd = opposite_directions d →
        (Snake.update_direction ⟨len, ps, d, pend⟩).direction = d) := by
    intro od h1 h2 h3
    exact update_direction_spec len ps pend d od h1 h2 h3
  rcases hd with h | h | h | h <;> subst h
  · exact key DOWN (by decide) (by decide) (by decide)
  · exact key UP (by decide) (by decide) (by decide)
  · exact key RIGHT (by decide) (by decide) (by decide)
  · exact key LEFT (by decide) (by decide) (by decide)

/-- Claim C2 witness: a reversal request (LEFT while heading RIGHT) is
dropped and the pending slot cleared. -/
theorem C2_update_direction_witness :
    ((Snake.direction ⟨1, [(320, 240)], RIGHT, some LEFT⟩ = UP ∨
      Snake.direction ⟨1, [(320, 240)], RIGHT, some LEFT⟩ = DOWN ∨
      Snake.direction ⟨1, [(320, 240)], RIGHT, some LEFT⟩ = LEFT ∨
      Snake.direction ⟨1, [(320, 240)], RIGHT, some LEFT⟩ = RIGHT)) ∧
    ((Snake.update_direction ⟨1, [(320, 240)], RIGHT, some LEFT⟩).direction
        ≠ (-(Snake.direction ⟨1, [(320, 240)], RIGHT, some LEFT⟩).1,
           -(Snake.direction ⟨1, [(320, 240)], RIGHT, some LEFT⟩).2) ∧
      (Snake.update_direction ⟨1, [(320, 240)], RIGHT, some LEFT⟩).next_direction = none ∧
      (∀ nd, Snake.next_direction ⟨1, [(320, 240)], RIGHT, some LEFT⟩ = some nd →
        some nd = opposite_directions (Snake.direction ⟨1, [(320, 240)], RIGHT, some LEFT⟩) →
        (Snake.update_direction ⟨1, [(320, 240)], RIGHT, some LEFT⟩).direction
          = Snake.direction ⟨1, [(320, 240)], RIGHT, some LEFT⟩)) :=
  ⟨by simp [RIGHT], C2_update_direction ⟨1, [(320, 240)], RIGHT, some LEFT⟩ (by simp [RIGHT])⟩

/-- Claim C3.  check_self_collision is false whenever `length < 4`, and for
`length ≥ 4` it is true exactly when the head cell `positions[0]` occurs in
`positions[1:]`. -/
theorem C3_check_self_collision (s : SnakeGame.Snake) :
    (s.length < 4 → s.check_self_collision = false) ∧
    (4 ≤ s.length →
      (s.check_self_collision = true ↔ s.positions.headI ∈ s.positions.tail)) := by
  constructor
  · intro h
    simp [Snake.check_self_collision, h]
  · intro h
    have h4 : ¬ s.length < 4 := Nat.not_lt.mpr h
    simp [Snake.check_self_collision, h4, Snake.get_head_position]

/-- Claim C3 witness: a four-segment snake whose head cell reappears in the
body collides, and a short snake never does. -/
theorem C3_check_self_collision_witness :
    Snake.check_self_collision ⟨3, [(320, 240), (300, 240), (280, 240)], RIGHT, none⟩
        = false ∧
    (Snake.check_self_collision
        ⟨4, [(320, 240), (300, 240), (300, 220), (320, 240)], RIGHT, none⟩ = true ↔
      ([((320 : Nat), (240 : Nat)), (300, 240), (300, 220), (320, 240)] : List SnakeGame.Cell).headI
        ∈ ([((320 : Nat), (240 : Nat)), (300, 240), (300, 220), (320, 240)] : List SnakeGame.Cell).tail) :=
  ⟨(C3_check_self_collision ⟨3, [(320, 240), (300, 240), (280, 240)], RIGHT, none⟩).1
      (by norm_num),
   (C3_check_self_collision ⟨4, [(320, 240), (300, 240), (300, 220), (320, 240)], RIGHT, none⟩).2
      (by norm_num)⟩

/-- Claim C6.  When the collision check of a tick fires, the reset keeps
exactly the pre-reset head as the only segment, sets `length` to 1, and
leaves the current direction and the pending slot untouched. -/
theorem C6_collision_reset (g : GameState) (intent : Option Dir) (pick : Nat)
    (h : (tick g intent pick).2.2 = true) :
    (tick g intent pick).1.snake.positions
      = [(tick_moved g intent).get_head_position] ∧
    (tick g intent pick).1.snake.length = 1 ∧
    (tick g intent pick).1.snake.direction = (tick_moved g intent).direction ∧
    (tick g intent pick).1.snake.next_direction
      = (tick_moved g intent).next_direction := by
  have hc : (tick_moved g intent).check_self_collision = true := h
  simp [tick, hc, collision_reset]

/-- Claim C6 witness: on the demo state the tick collides and the reset
keeps exactly the post-move head with length 1, direction and pending slot
untouched. -/
theorem C6_collision_reset_witness :
    (tick collisionDemo none 0).2.2 = true ∧
    ((tick collisionDemo none 0).1.snake.positions
        = [(tick_moved collisionDemo none).get_head_position] ∧
      (tick collisionDemo none 0).1.snake.length = 1 ∧
      (tick collisionDemo none 0).1.snake.direction
        = (tick_moved collisionDemo none).direction ∧
      (tick collisionDemo none 0).1.snake.next_direction
        = (tick_moved collisionDemo none).next_direction) :=
  ⟨by decide, C6_collision_reset collisionDemo none 0 (by decide)⟩

/-- A getD at an index below the length is a member of the list. -/
lemma getD_mem (l : List Cell) (n : Nat) (d : Cell) (h : n < l.length) :
    l.getD n d ∈ l := by
  rw [List.getD_eq_getElem l d h]
  exact List.getElem_mem _

/-- On a non-empty free list, randomize_position draws from it. -/
lemma randomize_position_eq_free (occupied : List Cell) (pick : Nat)
    (hne : (free_cells occupied).isEmpty = false) :
    randomize_position occupied pick
      = (free_cells occupied).getD (pick % (free_cells occupied).length)
          CENTER_POSITION := by
  unfold randomize_position
  simp [hne]

/-- On an empty free list, randomize_position falls back to the full grid. -/
lemma randomize_position_eq_fallback (occupied : List Cell) (pick : Nat)
    (he : (free_cells occupied).isEmpty = true) :
    randomize_position occupied pick
      = ALL_CELLS.getD (pick % ALL_CELLS.length) CENTER_POSITION := by
  unfold randomize_position
  simp [he]

/-- Any free cell can come up as the draw. -/
lemma randomize_position_exists (occupied : List Cell) (c : Cell)
    (hc : c ∈ ALL_CELLS) (hocc : c ∉ occupied) :
    ∃ pick, randomize_position occupied pick = c := by
  have hmem : c ∈ free_cells occupied := (mem_free_cells occupied c).mpr ⟨hc, hocc⟩
  have hne : (free_cells occupied).isEmpty = false := by
    cases hfc : free_cells occupied with
    | nil => rw [hfc] at hmem; cases hmem
    | cons a as => rfl
  obtain ⟨k, hk, hget⟩ := getD_of_mem (free_cells occupied) c CENTER_POSITION hmem
  refine ⟨k, ?_⟩
  rw [randomize_position_eq_free occupied k hne, Nat.mod_eq_of_lt hk, hget]

/-- With no free cell left, any grid cell can come up as the fallback
draw. -/
lemma randomize_fallback_exists (occupied : List Cell)
    (he : free_cells occupied = []) (c : Cell) (hc : c ∈ ALL_CELLS) :
    ∃ pick, randomize_position occupied pick = c := by
  have hee : (free_cells occupied).isEmpty = true := by rw [he]; rfl
  obtain ⟨k, hk, hget⟩ := getD_of_mem ALL_CELLS c CENTER_POSITION hc
  refine ⟨k, ?_⟩
  rw [randomize_position_eq_fallback occupied k hee, Nat.mod_eq_of_lt hk, hget]

/-- Claim C4.  Whenever some cell of the grid is unoccupied, every possible
draw of randomize_position lands on a grid cell that is not occupied. -/
theorem C4_randomize_position (occupied : List Cell)
    (h : ∃ c ∈ ALL_CELLS, c ∉ occupied) (pick : Nat) :
    randomize_position occupied pick ∈ ALL_CELLS ∧
    randomize_position occupied pick ∉ occupied := by
  obtain ⟨c, hc, hnotin⟩ := h
  have hmem : c ∈ free_cells occupied := (mem_free_cells occupied c).mpr ⟨hc, hnotin⟩
  have hne : (free_cells occupied).isEmpty = false := by
    cases hfc : free_cells occupied with
    | nil => rw [hfc] at hmem; cases hmem
    | cons a as => rfl
  have hlen : 0 < (free_cells occupied).length := by
    cases hfc : free_cells occupied with
    | nil => rw [hfc] at hmem; cases hmem
    | cons a as => simp
  have hin : randomize_position occupied pick ∈ free_cells occupied := by
    rw [randomize_position_eq_free occupied pick hne]
    exact getD_mem _ _ _ (Nat.mod_lt pick hlen)
  exact (mem_free_cells occupied _).mp hin

/-- Claim C4 witness: with only the centre occupied, the draw avoids it. -/
theorem C4_randomize_position_witness :
    randomize_position [CENTER_POSITION] 0 ∈ ALL_CELLS ∧
    randomize_position [CENTER_POSITION] 0 ∉ [CENTER_POSITION] :=
  C4_randomize_position [CENTER_POSITION] ⟨(0, 0), by decide, by decide⟩ 0

/-- Claim C9.  When the occupied list covers every grid cell, the draw does
not fail: it still returns some grid cell (the designed fallback). -/
theorem C9_randomize_position_fallback (occupied : List Cell)
    (h : ∀ c ∈ ALL_CELLS, c ∈ occupied) (pick : Nat) :
    randomize_position occupied pick ∈ ALL_CELLS := by
  by_cases hne : (free_cells occupied).isEmpty = true
  · have hlen : 0 < ALL_CELLS.length := by decide
    rw [randomize_position_eq_fallback occupied pick hne]
    exact getD_mem _ _ _ (Nat.mod_lt pick hlen)
  · have hlen : 0 < (free_cells occupied).length := by
      cases hfc : free_cells occupied with
      | nil => rw [hfc, List.isEmpty_nil] at hne; exact absurd rfl hne
      | cons a as => simp
    have hb : (free_cells occupied).isEmpty = false := Bool.eq_false_iff.mpr hne
    have hin : randomize_position occupied pick ∈ free_cells occupied := by
      rw [randomize_position_eq_free occupied pick hb]
      exact getD_mem _ _ _ (Nat.mod_lt pick hlen)
    exact ((mem_free_cells occupied _).mp hin).1

/-- Claim C9 witness: with the full grid occupied the fallback still yields
a grid cell. -/
theorem C9_randomize_position_fallback_witness :
    randomize_position ALL_CELLS 0 ∈ ALL_CELLS :=
  C9_randomize_position_fallback ALL_CELLS (fun c hc => hc) 0

/-- Membership in ALL_CELLS is exactly having cell-multiple coordinates in
range. -/
lemma mem_ALL_CELLS (c : Cell) :
    c ∈ ALL_CELLS ↔
      ∃ x, x < FIELD_WIDTH ∧ ∃ y, y < FIELD_HEIGHT ∧
        c = (x * CELL_SIZE, y * CELL_SIZE) := by
  simp only [ALL_CELLS, List.mem_flatMap, List.mem_map, List.mem_range]
  constructor
  · rintro ⟨x, hx, y, hy, rfl⟩
    exact ⟨x, hx, y, hy, rfl⟩
  · rintro ⟨x, hx, y, hy, rfl⟩
    exact ⟨x, hx, y, hy, rfl⟩

/-- The four-direction round trip, checked over the coordinate grid. -/
lemma roundtrip_grid :
    ∀ x, x < FIELD_WIDTH → ∀ y, y < FIELD_HEIGHT →
      advance (advance (advance (advance (x * CELL_SIZE, y * CELL_SIZE) UP)
          DOWN) LEFT) RIGHT = (x * CELL_SIZE, y * CELL_SIZE) := by
  decide

/-- The direction-inverse round trips, checked over the coordinate grid. -/
lemma inverse_grid :
    ∀ x, x < FIELD_WIDTH → ∀ y, y < FIELD_HEIGHT →
      advance (advance (x * CELL_SIZE, y * CELL_SIZE) UP) DOWN
          = (x * CELL_SIZE, y * CELL_SIZE) ∧
      advance (advance (x * CELL_SIZE, y * CELL_SIZE) DOWN) UP
          = (x * CELL_SIZE, y * CELL_SIZE) ∧
      advance (advance (x * CELL_SIZE, y * CELL_SIZE) LEFT) RIGHT
          = (x * CELL_SIZE, y * CELL_SIZE) ∧
      advance (advance (x * CELL_SIZE, y * CELL_SIZE) RIGHT) LEFT
          = (x * CELL_SIZE, y * CELL_SIZE) := by
  decide

/-- Claim C7 counterexample.  The claim asserts that some valid cell fails
the UP, DOWN, LEFT, RIGHT round trip; in fact no grid cell does: each
modular advance is inverted exactly by the opposite step, independently of
boundaries, so the asserted boundary failure does not exist. -/
theorem C7_roundtrip_counterexample :
    ¬ ∃ c ∈ ALL_CELLS,
        advance (advance (advance (advance c UP) DOWN) LEFT) RIGHT ≠ c := by
  rintro ⟨c, hc, hne⟩
  obtain ⟨x, hx, y, hy, rfl⟩ := (mem_ALL_CELLS c).mp hc
  exact hne (roundtrip_grid x hx y hy)

/-- Claim C7 amended.  For every grid cell the successive toroidal advance
by UP, DOWN, LEFT, RIGHT returns the original cell, at the boundaries as
everywhere else. -/
theorem C7_roundtrip :
    ∀ c ∈ ALL_CELLS,
      advance (advance (advance (advance c UP) DOWN) LEFT) RIGHT = c := by
  intro c hc
  obtain ⟨x, hx, y, hy, rfl⟩ := (mem_ALL_CELLS c).mp hc
  exact roundtrip_grid x hx y hy

/-- Claim C7 amended witness at the boundary cell (0, 0). -/
theorem C7_roundtrip_witness :
    advance (advance (advance (advance ((0, 0) : Cell) UP) DOWN) LEFT) RIGHT
      = (0, 0) :=
  C7_roundtrip (0, 0) (by decide)

/-- Claim C8.  For every grid cell and every direction, advancing by the
direction and then by its opposite returns the original cell. -/
theorem C8_advance_inverse :
    ∀ c ∈ ALL_CELLS,
      advance (advance c UP) DOWN = c ∧
      advance (advance c DOWN) UP = c ∧
      advance (advance c LEFT) RIGHT = c ∧
      advance (advance c RIGHT) LEFT = c := by
  intro c hc
  obtain ⟨x, hx, y, hy, rfl⟩ := (mem_ALL_CELLS c).mp hc
  exact inverse_grid x hx y hy

/-- Claim C8 witness at the corner cell (0, 0), where every advance wraps. -/
theorem C8_advance_inverse_witness :
    advance (advance ((0, 0) : Cell) UP) DOWN = (0, 0) ∧
    advance (advance ((0, 0) : Cell) DOWN) UP = (0, 0) ∧
    advance (advance ((0, 0) : Cell) LEFT) RIGHT = (0, 0) ∧
    advance (advance ((0, 0) : Cell) RIGHT) LEFT = (0, 0) :=
  C8_advance_inverse (0, 0) (by decide)

/-! Preservation lemmas for the tick phases. -/

/-- set_pending touches only the pending slot. -/
lemma set_pending_positions (s : Snake) (intent : Option Dir) :
    (set_pending s intent).positions = s.positions ∧
    (set_pending s intent).length = s.length ∧
    (set_pending s intent).direction = s.direction := by
  cases intent with
  | none => exact ⟨rfl, rfl, rfl⟩
  | some d => exact ⟨rfl, rfl, rfl⟩

/-- update_direction touches only the direction fields. -/
lemma update_direction_positions (s : Snake) :
    s.update_direction.positions = s.positions ∧
    s.update_direction.length = s.length := by
  obtain ⟨len, ps, d, pend⟩ := s
  cases pend with
  | none => exact ⟨rfl, rfl⟩
  | some nd =>
    by_cases h : some nd ≠ opposite_directions d
    · simp only [Snake.update_direction, if_pos h]
      exact ⟨trivial, trivial⟩
    · simp only [Snake.update_direction, if_neg h]
      exact ⟨trivial, trivial⟩

/-- The direction-resolution phase keeps the body and the recorded length. -/
lemma tick_resolved_positions (g : GameState) (intent : Option Dir) :
    (tick_resolved g intent).positions = g.snake.positions ∧
    (tick_resolved g intent).length = g.snake.length := by
  unfold tick_resolved
  obtain ⟨h1, h2, _⟩ := set_pending_positions g.snake intent
  obtain ⟨h3, h4⟩ := update_direction_positions (set_pending g.snake intent)
  exact ⟨h3.trans h1, h4.trans h2⟩

/-- Moving preserves the bookkeeping invariant. -/
lemma move_inv (s : Snake) (h : s.length = s.positions.length)
    (hne : s.positions ≠ []) (grow : Bool) :
    (s.move grow).length = (s.move grow).positions.length ∧
    (s.move grow).positions ≠ [] := by
  cases grow with
  | true => exact ⟨rfl, by simp [Snake.move]⟩
  | false =>
    cases hps : s.positions with
    | nil => exact absurd hps hne
    | cons c cs =>
      constructor
      · simp [Snake.move, List.length_dropLast, hps, h]
      · simp [Snake.move, hps, List.dropLast]

/-- One tick preserves the bookkeeping invariant. -/
lemma tick_inv (g : GameState) (h : g.snake.length = g.snake.positions.length)
    (hne : g.snake.positions ≠ []) (intent : Option Dir) (pick : Nat) :
    (tick g intent pick).1.snake.length
      = (tick g intent pick).1.snake.positions.length ∧
    (tick g intent pick).1.snake.positions ≠ [] := by
  obtain ⟨h1, h2⟩ := tick_resolved_positions g intent
  have hres : (tick_resolved g intent).length
      = (tick_resolved g intent).positions.length := by
    rw [h1, h2]; exact h
  have hresne : (tick_resolved g intent).positions ≠ [] := by
    rw [h1]; exact hne
  have hmove := move_inv (tick_resolved g intent) hres hresne (tick_grow g intent)
  show ((if (tick_moved g intent).check_self_collision
          then collision_reset (tick_moved g intent)
          else tick_moved g intent).length
        = (if (tick_moved g intent).check_self_collision
            then collision_reset (tick_moved g intent)
            else tick_moved g intent).positions.length)
    ∧ (if (tick_moved g intent).check_self_collision
          then collision_reset (tick_moved g intent)
          else tick_moved g intent).positions ≠ []
  cases (tick_moved g intent).check_self_collision with
  | true => exact ⟨rfl, by simp [collision_reset]⟩
  | false => exact hmove

/-- The bookkeeping invariant holds in every reachable state. -/
lemma reachable_inv (g : GameState) (h : Reachable g) :
    g.snake.length = g.snake.positions.length ∧ g.snake.positions ≠ [] := by
  induction h with
  | start pick0 => exact ⟨rfl, by simp [startState, Snake.start]⟩
  | step g intent pick hg ih => exact tick_inv g ih.1 ih.2 intent pick

/-- Claim C10.  In every state reachable at a tick boundary — the freshly
initialised game and every state produced by a full tick (direction
resolution, move with or without growth, and any collision reset) — the
recorded `length` equals the number of body segments. -/
theorem C10_length_invariant (g : GameState) (h : Reachable g) :
    g.snake.length = g.snake.positions.length :=
  (reachable_inv g h).1

/-- Claim C10 witness at the initial state. -/
theorem C10_length_invariant_witness :
    (startState 0).snake.length = (startState 0).snake.positions.length :=
  C10_length_invariant (startState 0) (Reachable.start 0)

/-! Facts about the grid-covering walk, checked over Nat bounds. -/

/-- unpathIndex is a left inverse of pathCell on the walk. -/
lemma unpath_path : ∀ n, n < 768 → unpathIndex (pathCell n) = n := by
  decide

/-- pathIndex hits every grid coordinate with a walk index. -/
lemma path_surj : ∀ x, x < FIELD_WIDTH → ∀ y, y < FIELD_HEIGHT →
    pathIndex x y < 768 ∧ pathCell (pathIndex x y) = (x * CELL_SIZE, y * CELL_SIZE) := by
  decide

/-- Each walk step is the toroidal advance by the step direction. -/
lemma advance_path : ∀ n, n < 767 → advance (pathCell n) (pathDir n) = pathCell (n + 1) := by
  decide

/-- No walk step requests the exact opposite of the previous heading, so
update_direction accepts every step (step -1 is the initial heading
RIGHT = pathDir 0). -/
lemma nonrev_path : ∀ t, t < 767 →
    some (pathDir t) ≠ opposite_directions (pathDir (t - 1)) := by
  decide

/-- pathCell is injective on the walk. -/
lemma pathCell_inj (m n : Nat) (hm : m < 768) (hn : n < 768)
    (h : pathCell m = pathCell n) : m = n := by
  have h1 := unpath_path m hm
  have h2 := unpath_path n hn
  rw [h] at h1
  rw [h2] at h1
  exact h1.symm

/-- Every walk cell is a grid cell. -/
lemma pathCell_mem_ALL_CELLS (n : Nat) : pathCell n ∈ ALL_CELLS := by
  rw [mem_ALL_CELLS]
  refine ⟨if (n / 32) % 2 = 0 then (16 + n % 32) % 32 else (47 - n % 32) % 32,
    ?_, (12 + n / 32) % 24, ?_, ?_⟩
  · by_cases h : (n / 32) % 2 = 0
    · rw [if_pos h]
      exact Nat.mod_lt _ (by norm_num)
    · rw [if_neg h]
      exact Nat.mod_lt _ (by norm_num)
  · exact Nat.mod_lt _ (by norm_num)
  · rfl

/-- The body after t ticks has t + 1 segments. -/
lemma posAfter_length (t : Nat) : (posAfter t).length = t + 1 := by
  induction t with
  | zero => rfl
  | succ n ih => simp [posAfter, ih]

/-- The head after t ticks is the t-th walk cell. -/
lemma posAfter_headI (t : Nat) : (posAfter t).headI = pathCell t := by
  cases t with
  | zero => rfl
  | succ n => rfl

/-- The body after t ticks consists exactly of the first t + 1 walk cells. -/
lemma mem_posAfter (c : Cell) (t : Nat) :
    c ∈ posAfter t ↔ ∃ m, m ≤ t ∧ c = pathCell m := by
  induction t with
  | zero =>
    simp only [posAfter, List.mem_singleton]
    constructor
    · intro h
      exact ⟨0, Nat.le_refl 0, h⟩
    · rintro ⟨m, hm, rfl⟩
      rw [Nat.le_zero.mp hm]
  | succ n ih =>
    simp only [posAfter, List.mem_cons, ih]
    constructor
    · rintro (h | ⟨m, hm, rfl⟩)
      · exact ⟨n + 1, Nat.le_refl _, h⟩
      · exact ⟨m, Nat.le_succ_of_le hm, rfl⟩
    · rintro ⟨m, hm, rfl⟩
      rcases Nat.lt_or_ge m (n + 1) with hlt | hge
      · exact Or.inr ⟨m, Nat.lt_succ_iff.mp hlt, rfl⟩
      · exact Or.inl (by rw [Nat.le_antisymm hm hge])

/-- A later walk cell never lies on an earlier body. -/
lemma pathCell_not_mem_posAfter (n t : Nat) (h : t < n) (hn : n < 768) :
    pathCell n ∉ posAfter t := by
  rw [mem_posAfter]
  rintro ⟨m, hm, heq⟩
  have hm768 : m < 768 := by omega
  have := pathCell_inj n m hn hm768 heq
  omega

/-- The body after 767 ticks leaves no free cell. -/
lemma free_cells_posAfter_full : free_cells (posAfter 767) = [] := by
  apply List.filter_eq_nil_iff.mpr
  intro a ha
  simp only [decide_eq_true_eq, Decidable.not_not]
  obtain ⟨x, hx, y, hy, rfl⟩ := (mem_ALL_CELLS a).mp ha
  obtain ⟨hidx, hcell⟩ := path_surj x hx y hy
  rw [mem_posAfter]
  exact ⟨pathIndex x y, by omega, hcell.symm⟩

/-! Characterisation of a growth tick. -/

/-- Moving with growth, written out. -/
lemma move_true (s : Snake) :
    s.move true
      = ⟨s.positions.length + 1,
         advance s.get_head_position s.direction :: s.positions,
         s.direction, s.next_direction⟩ := by
  simp [Snake.move]

/-- Resolving an accepted intent commits it and clears the pending slot. -/
lemma tick_resolved_accept (g : GameState) (d : Dir)
    (h : some d ≠ opposite_directions g.snake.direction) :
    tick_resolved g (some d)
      = ⟨g.snake.length, g.snake.positions, d, none⟩ := by
  obtain ⟨⟨len, ps, d0, pend⟩, apple⟩ := g
  simp only at h
  simp only [tick_resolved, set_pending, Snake.update_direction, if_pos h]

/-- A tick whose look-ahead head is the apple, reached by an accepted
intent, with the apple off the body: the snake grows by that cell, the
apple is redrawn over the new body, the tick reports grew and not
collided. -/
lemma tick_grow_step (g : GameState) (d : Dir) (pick : Nat)
    (hacc : some d ≠ opposite_directions g.snake.direction)
    (hgrow : advance g.snake.get_head_position d = g.apple)
    (hout : g.apple ∉ g.snake.positions) :
    tick g (some d) pick
      = (⟨⟨g.snake.positions.length + 1, g.apple :: g.snake.positions, d, none⟩,
          randomize_position (g.apple :: g.snake.positions) pick⟩,
         true, false) := by
  have hres := tick_resolved_accept g d hacc
  have hg : tick_grow g (some d) = true := by
    unfold tick_grow
    rw [hres]
    exact decide_eq_true hgrow
  have hmoved : tick_moved g (some d)
      = ⟨g.snake.positions.length + 1, g.apple :: g.snake.positions, d, none⟩ := by
    unfold tick_moved
    rw [hres, hg, move_true]
    simp only [Snake.get_head_position]
    rw [show (⟨g.snake.length, g.snake.positions, d, none⟩ : Snake).positions.headI
          = g.snake.get_head_position from rfl]
    rw [hgrow]
  have hcheck : (tick_moved g (some d)).check_self_collision = false := by
    rw [hmoved]
    simp [Snake.check_self_collision, Snake.get_head_position, hout]
  simp only [tick]
  rw [hcheck, hg, hmoved]
  simp

/-- Every state along the walk is reachable: the apple draws always hand
the snake its next cell, so it grows on every tick. -/
lemma reach_stateAfter : ∀ t, t ≤ 767 → Reachable (stateAfter t) := by
  intro t
  induction t with
  | zero =>
    intro _
    obtain ⟨pick0, hp⟩ :=
      randomize_position_exists Snake.start.positions (pathCell 1)
        (pathCell_mem_ALL_CELLS 1) (by decide)
    have hstart : startState pick0 = stateAfter 0 := by
      unfold startState
      rw [hp]
      decide
    exact hstart ▸ Reachable.start pick0
  | succ n ih =>
    intro h
    have hn : n < 767 := by omega
    have happle : ∃ pick,
        randomize_position (posAfter (n + 1)) pick
          = (stateAfter (n + 1)).apple := by
      by_cases h7 : n + 1 < 767
      · rw [show (stateAfter (n + 1)).apple = pathCell (n + 2) from by
          simp [stateAfter, h7]]
        exact randomize_position_exists _ _ (pathCell_mem_ALL_CELLS _)
          (pathCell_not_mem_posAfter (n + 2) (n + 1) (by omega) (by omega))
      · have hn766 : n = 766 := by omega
        subst hn766
        rw [show (stateAfter 767).apple = (300, 220) from by simp [stateAfter]]
        apply randomize_fallback_exists
        · exact free_cells_posAfter_full
        · rw [mem_ALL_CELLS]
          exact ⟨15, by decide, 11, by decide, by decide⟩
    obtain ⟨pick, hpick⟩ := happle
    have hstep : tick (stateAfter n) (some (pathDir n)) pick
        = (stateAfter (n + 1), true, false) := by
      rw [tick_grow_step (stateAfter n) (pathDir n) pick
            (nonrev_path n hn)
            (by
              rw [show (stateAfter n).snake.get_head_position = pathCell n from
                    posAfter_headI n,
                  show (stateAfter n).apple = pathCell (n + 1) from by
                    simp [stateAfter, hn]]
              exact advance_path n hn)
            (by
              rw [show (stateAfter n).apple = pathCell (n + 1) from by
                    simp [stateAfter, hn]]
              exact pathCell_not_mem_posAfter (n + 1) n (by omega) (by omega))]
      rw [show ((stateAfter n).snake.positions.length : Nat) = n + 1 from
            posAfter_length n]
      rw [show ((stateAfter n).apple :: (stateAfter n).snake.positions : List Cell)
            = posAfter (n + 1) from by
            rw [show (stateAfter n).apple = pathCell (n + 1) from by
                  simp [stateAfter, hn]]
            rfl]
      rw [hpick]
      rfl
    have hr := Reachable.step (stateAfter n) (some (pathDir n)) pick (ih (by omega))
    rw [hstep] at hr
    exact hr

/-- Claim C5 counterexample.  In the reachable degenerate state where the
snake covers the whole grid, the apple fallback has put the apple on the
body straight ahead, and the next tick both grows and collides, so growth
and collision can co-occur in one tick. -/
theorem C5_grow_collision_counterexample :
    ¬ (∀ g, Reachable g → ∀ intent pick,
        (tick g intent pick).2.1 = true → (tick g intent pick).2.2 = false) := by
  intro hall
  have h1 : (tick (stateAfter 767) none 0).2.1 = true := by decide
  have h2 := hall (stateAfter 767) (reach_stateAfter 767 (by norm_num)) none 0 h1
  have h3 : (tick (stateAfter 767) none 0).2.2 = true := by decide
  rw [h2] at h3
  exact Bool.noConfusion h3

/-- Claim C5 amended.  In any tick that starts from a state whose apple is
not on the snake's body, the outcomes grew and collided never co-occur: if
the tick grew, its collision check is false. -/
theorem C5_no_grow_collision (g : GameState) (intent : Option Dir) (pick : Nat)
    (h : g.apple ∉ g.snake.positions) :
    (tick g intent pick).2.1 = true → (tick g intent pick).2.2 = false := by
  intro hg
  have hgrow : tick_grow g intent = true := hg
  have hg2 : advance (tick_resolved g intent).get_head_position
      (tick_resolved g intent).direction = g.apple := by
    unfold tick_grow at hgrow
    exact of_decide_eq_true hgrow
  have ht : tick_moved g intent = (tick_resolved g intent).move true := by
    unfold tick_moved
    rw [hgrow]
  have hps := (tick_resolved_positions g intent).1
  have hg3 : advance g.snake.positions.headI (tick_resolved g intent).direction
      = g.apple := by
    rw [← hps]
    exact hg2
  have hfalse : (tick_moved g intent).check_self_collision = false := by
    rw [ht, move_true]
    simp [Snake.check_self_collision, Snake.get_head_position, hg3, hps, h]
  exact hfalse

/-- Claim C5 amended witness: the very first tick of a fresh game with the
apple straight ahead grows and does not collide. -/
theorem C5_no_grow_collision_witness :
    (tick ⟨Snake.start, (340, 240)⟩ none 0).2.2 = false :=
  C5_no_grow_collision ⟨Snake.start, (340, 240)⟩ none 0 (by decide) (by decide)

end SnakeGame
